import Mathlib

/-!
Verification of the escrow and flash-loan programs.

Shallow embedding of the two Anchor programs (`escrow`, `flash_loan`) and the
pinocchio escrow program. Machine integers are modelled as `Nat` with explicit
bounds (`U64`); fallible code returns `Except`; a Rust panic (out-of-bounds
slice index, `unwrap` on `None`) is a distinguished abnormal outcome, separate
from tagged program errors. Instructions issue their token effects in program
order; an effect list paired with an `Except` result records what a call did
before it succeeded or aborted (the enclosing transaction's atomicity rolls
back the effects of an aborted call).
-/

/-- 2^64, the `u64` modulus. -/
def U64 : Nat := 2 ^ 64

/-- Little-endian byte decoding (`u64::from_le_bytes` on an 8-byte slice, and the
32-byte public-key fields, read as one number). Each byte is reduced mod 256. -/
def leBytes : List Nat → Nat
  | [] => 0
  | b :: rest => b % 256 + 256 * leBytes rest

/-- Little-endian encoding of `n` into `w` bytes (test fixtures only). -/
def natToLe (n : Nat) : Nat → List Nat
  | 0 => []
  | w + 1 => n % 256 :: natToLe (n / 256) w

theorem natToLe_length (n w : Nat) : (natToLe n w).length = w := by
  induction w generalizing n with
  | zero => rfl
  | succ w ih => simp [natToLe, ih]

theorem leBytes_lt (l : List Nat) : leBytes l < 256 ^ l.length := by
  induction l with
  | nil => simp [leBytes]
  | cons b rest ih =>
      have hb : b % 256 < 256 := Nat.mod_lt _ (by norm_num)
      calc b % 256 + 256 * leBytes rest
          < 256 + 256 * leBytes rest := by omega
        _ ≤ 256 * (1 + leBytes rest) := by ring_nf; omega
        _ ≤ 256 * 256 ^ rest.length := by
              have := ih
              exact Nat.mul_le_mul_left 256 (by omega)
        _ = 256 ^ (rest.length + 1) := by ring
        _ = 256 ^ (b :: rest).length := by simp

/-- Account public keys, abstracted as naturals. -/
abbrev Pubkey := Nat

/-- An observable effect issued through the external token subsystem, in program
order: a token transfer, a token-account close (lamports to a destination), or a
program-record close (lamports to a destination). -/
inductive Effect
  | transfer (src dst : Pubkey) (amount : Nat)
  | closeToken (acct dst : Pubkey) (lamports : Nat)
  | closeRecord (acct dst : Pubkey) (lamports : Nat)
deriving DecidableEq

/-- A token account's view relevant to these programs: its address, token balance
and lamport balance. -/
structure TokenView where
  key : Pubkey
  balance : Nat
  lamports : Nat
deriving DecidableEq

/-- SPL token transfer semantics on a pair of balances: fails when the source
balance is insufficient or the destination balance would exceed `u64`. -/
def tokenTransfer (src dst : TokenView) (amount : Nat) :
    Option (TokenView × TokenView) :=
  if amount ≤ src.balance ∧ dst.balance + amount < U64 then
    some ({ src with balance := src.balance - amount },
          { dst with balance := dst.balance + amount })
  else none

/-- SPL `CloseAccount` semantics: fails unless the token balance is zero; the
account's lamports move to the destination. Returns the closed account view and
the destination's new lamport balance. -/
def tokenClose (acct : TokenView) (destLamports : Nat) :
    Option (TokenView × Nat) :=
  if acct.balance = 0 then some ({ acct with lamports := 0 }, destLamports + acct.lamports)
  else none

namespace FlashLoan

/-- One account reference inside a serialized instruction (`AccountMeta`); only
the pubkey is inspected by this program. -/
structure AccountMeta where
  pubkey : Pubkey
deriving DecidableEq

/-- A sibling instruction as exposed by the instructions sysvar: target program,
ordered account references, raw data bytes. -/
structure Ix where
  program_id : Pubkey
  accounts : List AccountMeta
  data : List Nat
deriving DecidableEq

/-- The instructions sysvar of the enclosing transaction: its ordered instruction
list (whose length is serialized as the leading `u16`) and the index of the
currently executing instruction (`load_current_index_checked`). -/
structure IxSysvar where
  instrs : List Ix
  current_index : Nat
deriving DecidableEq

/-- The flash-loan program id (`declare_id!`), abstracted as a fixed key. -/
def flashProgramId : Pubkey := 22222

/-- `load_current_index_checked`: the sysvar's stored current index. -/
def loadCurrentIndexChecked (s : IxSysvar) : Nat := s.current_index

/-- `load_instruction_at_checked i`: the transaction's `i`-th instruction, or a
failure when the index is out of range. -/
def loadInstructionAtChecked (i : Nat) (s : IxSysvar) : Option Ix := s.instrs.get? i

/-- Anchor's fixed 8-byte discriminator for the `Repay` instruction
(`instruction::Repay::DISCRIMINATOR`, the first 8 bytes of sha256 of
the repay instruction's global namespace tag). -/
def repayDiscriminator : List Nat := [234, 103, 67, 82, 208, 234, 219, 166]

/-- `ProtocolError` (errors module of the flash-loan program; variants as used in
lib.rs), plus a tag for errors propagated verbatim from the token subsystem. -/
inductive ProtocolError
  | InvalidAmount
  | InvalidIx
  | InvalidProgram
  | InvalidBorrowerAta
  | InvalidProtocolAta
  | MissingRepayIx
  | MissingBorrowIx
  | Overflow
  | TokenFailure
deriving DecidableEq

/-- Abnormal termination of an instruction: a tagged program error, or a Rust
panic (out-of-bounds slice index / `unwrap`). A panic still aborts the whole
transaction but carries no program error tag. -/
inductive Abort
  | err (e : ProtocolError)
  | panic
deriving DecidableEq

/-- Keys of the two token accounts as seen by `borrow`/`repay`. -/
structure LoanKeys where
  borrowerAta : Pubkey
  protocolAta : Pubkey
deriving DecidableEq

/-- Token balances touched by the flash-loan instructions: the pool custody
account and the borrower's account. -/
structure LoanState where
  protocolAta : Nat
  borrowerAta : Nat
deriving DecidableEq

/-- Shallow embedding of `flash_loan::borrow` (lib.rs 26-81). The pool-to-borrower
transfer is issued before the introspection checks, so the effect list carries it
even when a later check aborts (the transaction's atomicity rolls it back).
The last instruction's index is the sysvar's leading `u16` count minus one; the
discriminator comparison slices `data[0..8]`, which panics when the data is
shorter than 8 bytes. -/
def borrow (ks : LoanKeys) (st : LoanState) (borrow_amount : Nat)
    (sysvar : IxSysvar) : List Effect × Except Abort LoanState :=
  if borrow_amount = 0 then ([], .error (.err .InvalidAmount)) else
  match tokenTransfer ⟨ks.protocolAta, st.protocolAta, 0⟩ ⟨ks.borrowerAta, st.borrowerAta, 0⟩ borrow_amount with
  | none => ([], .error (.err .TokenFailure))
  | some (pool, borrower) =>
    if loadCurrentIndexChecked sysvar ≠ 0 then
      ([Effect.transfer ks.protocolAta ks.borrowerAta borrow_amount], .error (.err .InvalidIx)) else
    match loadInstructionAtChecked (sysvar.instrs.length % 65536 - 1) sysvar with
    | none =>
      ([Effect.transfer ks.protocolAta ks.borrowerAta borrow_amount], .error (.err .MissingRepayIx))
    | some repay_ix =>
      if repay_ix.program_id ≠ flashProgramId then
        ([Effect.transfer ks.protocolAta ks.borrowerAta borrow_amount], .error (.err .InvalidProgram)) else
      if repay_ix.data.length < 8 then
        ([Effect.transfer ks.protocolAta ks.borrowerAta borrow_amount], .error .panic) else
      if repay_ix.data.take 8 ≠ repayDiscriminator then
        ([Effect.transfer ks.protocolAta ks.borrowerAta borrow_amount], .error (.err .InvalidIx)) else
      match repay_ix.accounts[3]? with
      | none =>
        ([Effect.transfer ks.protocolAta ks.borrowerAta borrow_amount], .error (.err .InvalidBorrowerAta))
      | some m3 =>
        if m3.pubkey ≠ ks.borrowerAta then
          ([Effect.transfer ks.protocolAta ks.borrowerAta borrow_amount], .error (.err .InvalidBorrowerAta)) else
        match repay_ix.accounts[4]? with
        | none =>
          ([Effect.transfer ks.protocolAta ks.borrowerAta borrow_amount], .error (.err .InvalidProtocolAta))
        | some m4 =>
          if m4.pubkey ≠ ks.protocolAta then
            ([Effect.transfer ks.protocolAta ks.borrowerAta borrow_amount], .error (.err .InvalidProtocolAta)) else
          ([Effect.transfer ks.protocolAta ks.borrowerAta borrow_amount],
           .ok ⟨pool.balance, borrower.balance⟩)

/-- `u128` checked multiplication. -/
def checkedMul128 (a b : Nat) : Option Nat :=
  if a * b < 2 ^ 128 then some (a * b) else none

/-- Checked division: `none` only on a zero divisor. -/
def checkedDiv (a b : Nat) : Option Nat := if b = 0 then none else some (a / b)

/-- `u64` checked addition. -/
def checkedAdd64 (a b : Nat) : Option Nat :=
  if a + b < U64 then some (a + b) else none

/-- The fee computation of `repay` (lib.rs 102): multiply by 500 in `u128` (an
`unwrap` on overflow is a panic), checked-divide by 10000 (`Overflow` on a
failure), then cast back to `u64`. -/
def flashFee (amount : Nat) : Except Abort Nat :=
  match checkedMul128 amount 500 with
  | none => .error .panic
  | some p =>
    match checkedDiv p 10000 with
    | none => .error (.err .Overflow)
    | some f => .ok (f % U64)

/-- Fee plus principal (lib.rs 103): `checked_add` with `Overflow` on failure. -/
def repayTotal (amount : Nat) : Except Abort Nat :=
  match flashFee amount with
  | .error e => .error e
  | .ok f =>
    match checkedAdd64 amount f with
    | none => .error (.err .Overflow)
    | some t => .ok t

/-- Shallow embedding of `flash_loan::repay` (lib.rs 83-119): load the first
instruction of the transaction, read bytes 8..16 of its data as the little-endian
borrow amount (the slice panics when the payload is shorter than 16 bytes), add
the fee, and transfer the total from the borrower back to the pool. -/
def repay (ks : LoanKeys) (st : LoanState) (sysvar : IxSysvar) :
    List Effect × Except Abort LoanState :=
  match loadInstructionAtChecked 0 sysvar with
  | none => ([], .error (.err .MissingBorrowIx))
  | some borrow_ix =>
    if borrow_ix.data.length < 16 then ([], .error .panic) else
    match repayTotal (leBytes ((borrow_ix.data.drop 8).take 8)) with
    | .error e => ([], .error e)
    | .ok total =>
      match tokenTransfer ⟨ks.borrowerAta, st.borrowerAta, 0⟩ ⟨ks.protocolAta, st.protocolAta, 0⟩ total with
      | none => ([], .error (.err .TokenFailure))
      | some (borrower, pool) =>
        ([Effect.transfer ks.borrowerAta ks.protocolAta total],
         .ok ⟨pool.balance, borrower.balance⟩)

/-- The introspection conditions `borrow` demands of the transaction: executing
at index 0, and a last instruction that targets this program, starts with the
`Repay` discriminator, and references the borrower and pool token accounts at
argument positions 3 and 4. -/
def borrowChecksPass (ks : LoanKeys) (sysvar : IxSysvar) : Bool :=
  sysvar.current_index == 0 &&
  match loadInstructionAtChecked (sysvar.instrs.length % 65536 - 1) sysvar with
  | none => false
  | some r =>
    r.program_id == flashProgramId &&
    r.data.take 8 == repayDiscriminator &&
    (match r.accounts[3]? with
     | some m => m.pubkey == ks.borrowerAta
     | none => false) &&
    (match r.accounts[4]? with
     | some m => m.pubkey == ks.protocolAta
     | none => false)

/-- The one spot where `borrow`'s introspection panics instead of returning a
tagged error: a last instruction that targets this program but whose data is
shorter than the 8-byte discriminator slice. -/
def borrowHitsPanic (sysvar : IxSysvar) : Bool :=
  sysvar.current_index == 0 &&
  match loadInstructionAtChecked (sysvar.instrs.length % 65536 - 1) sysvar with
  | none => false
  | some r => r.program_id == flashProgramId && r.data.length < 8

end FlashLoan

/-- An abstract authority derivation (`create_program_address` over the seed list
consisting of the escrow namespace tag, the maker key, the little-endian seed and
the bump byte). The hash itself is an external runtime collaborator; the programs
only compare its output. `none` models a derivation failure. -/
def Cpa : Type := Pubkey → Nat → Nat → Option Pubkey

namespace PinEscrow

/-- The subset of `ProgramError` the pinocchio escrow produces, with
`PinocchioError` mapped through its `From` impl (errors.rs): `NotSigner` →
`MissingRequiredSignature`, `InvalidOwner` → `IllegalOwner`, `InvalidAccountData`
→ `InvalidAccountData`, `InvalidAddress` → `InvalidSeeds`. `TokenFailure` stands
for errors propagated verbatim from the token subsystem, `CpaFailure` for a
failing `create_program_address`. -/
inductive ProgErr
  | NotEnoughAccountKeys
  | MissingRequiredSignature
  | IllegalOwner
  | InvalidAccountData
  | InvalidSeeds
  | InvalidAccountOwner
  | InvalidInstructionData
  | TokenFailure
  | CpaFailure
deriving DecidableEq

/-- The escrow record's fields (state.rs). -/
structure EscrowData where
  seed : Nat
  maker : Pubkey
  mint_a : Pubkey
  mint_b : Pubkey
  receive : Nat
  bump : Nat
deriving DecidableEq

/-- `Escrow::LEN`: seed u64 + three 32-byte keys + receive u64 + one bump byte. -/
def escrowLen : Nat := 8 + 32 + 32 + 32 + 8 + 1

/-- `Escrow::load` (state.rs 31-36): demand a buffer of exactly `Escrow::LEN`
bytes and reinterpret it following the record's declared C layout:
seed:u64 LE at 0, maker at 8, mint_a at 40, mint_b at 72, receive:u64 LE at 104,
bump at 112. -/
def escrowLoad (bytes : List Nat) : Except ProgErr EscrowData :=
  if bytes.length ≠ escrowLen then .error .InvalidAccountData
  else .ok
    { seed := leBytes (bytes.take 8)
      maker := leBytes ((bytes.drop 8).take 32)
      mint_a := leBytes ((bytes.drop 40).take 32)
      mint_b := leBytes ((bytes.drop 72).take 32)
      receive := leBytes ((bytes.drop 104).take 8)
      bump := leBytes ((bytes.drop 112).take 1) }

/-- Fixture encoder: the 113-byte record for given field values. -/
def mkEscrowBytes (seed maker mint_a mint_b receive bump : Nat) : List Nat :=
  natToLe seed 8 ++ natToLe maker 32 ++ natToLe mint_a 32 ++ natToLe mint_b 32 ++
  natToLe receive 8 ++ natToLe bump 1

/-- A ledger account as the pinocchio program sees it: address, owning program,
lamport balance, raw data. -/
structure AccountView where
  key : Pubkey
  owner : Pubkey
  lamports : Nat
  data : List Nat
deriving DecidableEq

/-- The escrow program id (lib.rs `ID`), abstracted as a fixed key. -/
def crateId : Pubkey := 33333

/-- `AccountCheck for ProgramAccount` (helpers.rs 306-318): the account must be
owned by this program and its data length must be exactly `Escrow::LEN`. -/
def programAccountCheck (a : AccountView) : Except ProgErr Unit :=
  if a.owner ≠ crateId then .error .IllegalOwner
  else if a.data.length ≠ escrowLen then .error .InvalidAccountData
  else .ok ()

/-- `AccountInfo::resize` semantics on the data buffer: shrink, or zero-extend. -/
def resizeData (d : List Nat) (n : Nat) : List Nat :=
  d.take n ++ List.replicate (n - d.length) 0

/-- `AccountClose for ProgramAccount` (helpers.rs 343-354): overwrite the first
data byte with 0xff, credit the account's lamports to the destination, resize the
data to one byte, then close the account. `AccountInfo::close` itself is a
runtime mechanic outside this repository (the spec puts generic account-closing
mechanics out of scope); it is modelled as zeroing the account's lamport balance.
Returns the closed account view and the destination's new lamport balance. -/
def programAccountClose (a : AccountView) (destLamports : Nat) :
    AccountView × Nat :=
  ({ a with data := resizeData (a.data.set 0 255) 1, lamports := 0 },
   destLamports + a.lamports)

/-- The accounts and balances `Take` touches. -/
structure TakeState where
  takerKey : Pubkey
  takerLamports : Nat
  makerKey : Pubkey
  makerLamports : Nat
  escrow : AccountView
  vault : TokenView
  taker_ata_a : TokenView
  taker_ata_b : TokenView
  maker_ata_b : TokenView
deriving DecidableEq

/-- Shallow embedding of pinocchio `Take::process` (take.rs 100-162): load the
record, recompute the derived address from the supplied maker key and the stored
seed and bump and compare it with the record's own address, read the vault's live
balance, transfer it all to the taker, close the vault to the maker, transfer
`receive` from taker to maker, and close the record to the taker. Effects are
listed in program order. -/
def takeProcess (cpa : Cpa) (s : TakeState) :
    List Effect × Except ProgErr TakeState :=
  match escrowLoad s.escrow.data with
  | .error e => ([], .error e)
  | .ok esc =>
    match cpa s.makerKey esc.seed esc.bump with
    | none => ([], .error .CpaFailure)
    | some escrow_key =>
      if escrow_key ≠ s.escrow.key then ([], .error .InvalidAccountOwner) else
      match tokenTransfer s.vault s.taker_ata_a s.vault.balance with
      | none => ([], .error .TokenFailure)
      | some (vault, taker_ata_a) =>
        match tokenClose vault s.makerLamports with
        | none =>
          ([Effect.transfer s.vault.key s.taker_ata_a.key s.vault.balance],
           .error .TokenFailure)
        | some (vault, makerLamports) =>
          match tokenTransfer s.taker_ata_b s.maker_ata_b esc.receive with
          | none =>
            ([Effect.transfer s.vault.key s.taker_ata_a.key s.vault.balance,
              Effect.closeToken s.vault.key s.makerKey s.vault.lamports],
             .error .TokenFailure)
          | some (taker_ata_b, maker_ata_b) =>
            ([Effect.transfer s.vault.key s.taker_ata_a.key s.vault.balance,
              Effect.closeToken s.vault.key s.makerKey s.vault.lamports,
              Effect.transfer s.taker_ata_b.key s.maker_ata_b.key esc.receive,
              Effect.closeRecord s.escrow.key s.takerKey s.escrow.lamports],
             .ok
              { s with
                takerLamports := (programAccountClose s.escrow s.takerLamports).2
                makerLamports := makerLamports
                escrow := (programAccountClose s.escrow s.takerLamports).1
                vault := vault
                taker_ata_a := taker_ata_a
                taker_ata_b := taker_ata_b
                maker_ata_b := maker_ata_b })

/-- The accounts and balances `Refund` touches. -/
structure RefundState where
  makerKey : Pubkey
  makerLamports : Nat
  escrow : AccountView
  vault : TokenView
  maker_ata_a : TokenView
deriving DecidableEq

/-- Shallow embedding of pinocchio `Refund::process` (refund.rs 84-138): load the
record, check the derived address, transfer the vault's live balance back to the
maker's account, close the vault to the maker, and close the record to the maker. -/
def refundProcess (cpa : Cpa) (s : RefundState) :
    List Effect × Except ProgErr RefundState :=
  match escrowLoad s.escrow.data with
  | .error e => ([], .error e)
  | .ok esc =>
    match cpa s.makerKey esc.seed esc.bump with
    | none => ([], .error .CpaFailure)
    | some escrow_key =>
      if escrow_key ≠ s.escrow.key then ([], .error .InvalidAccountOwner) else
      match tokenTransfer s.vault s.maker_ata_a s.vault.balance with
      | none => ([], .error .TokenFailure)
      | some (vault, maker_ata_a) =>
        match tokenClose vault s.makerLamports with
        | none =>
          ([Effect.transfer s.vault.key s.maker_ata_a.key s.vault.balance],
           .error .TokenFailure)
        | some (vault, makerLamports) =>
          ([Effect.transfer s.vault.key s.maker_ata_a.key s.vault.balance,
            Effect.closeToken s.vault.key s.makerKey s.vault.lamports,
            Effect.closeRecord s.escrow.key s.makerKey s.escrow.lamports],
           .ok
            { s with
              makerLamports := (programAccountClose s.escrow makerLamports).2
              escrow := (programAccountClose s.escrow makerLamports).1
              vault := vault
              maker_ata_a := maker_ata_a })

/-- `Make`'s parsed instruction data (make.rs). -/
structure MakeInstructionData where
  seed : Nat
  receive : Nat
  amount : Nat
deriving DecidableEq

/-- `MakeInstructionData::try_from` (make.rs 59-82): demand exactly 24 bytes,
decode the three little-endian u64 fields, and reject a zero deposit `amount`.
No check is made on `receive`. -/
def makeInstructionDataTryFrom (data : List Nat) :
    Except ProgErr MakeInstructionData :=
  if data.length ≠ 24 then .error .InvalidInstructionData
  else if leBytes ((data.drop 16).take 8) = 0 then .error .InvalidInstructionData
  else .ok ⟨leBytes (data.take 8), leBytes ((data.drop 8).take 8),
            leBytes ((data.drop 16).take 8)⟩

end PinEscrow

namespace AnchorEscrow

/-- The anchor escrow's tagged errors as used in its accounts constraints and
handlers (`EscrowError` variants named in make.rs/take.rs/refund.rs), plus the
framework's seeds-constraint violation and token-subsystem failures. -/
inductive EscrowError
  | InvalidAmount
  | InvalidMaker
  | InvalidMintA
  | InvalidMintB
  | ConstraintSeeds
  | TokenFailure
deriving DecidableEq

/-- The accounts `make`'s handler touches. -/
structure MakeState where
  makerKey : Pubkey
  mintA : Pubkey
  mintB : Pubkey
  maker_ata_a : TokenView
  vault : TokenView
deriving DecidableEq

/-- Anchor `make` handler (make.rs 92-104): reject a zero `receive` or a zero
`amount` with `InvalidAmount`, populate the record, and deposit `amount` of
mint A from the maker's account into the vault. Returns the populated record,
the updated token accounts and the effect trace. -/
def makeHandler (s : MakeState) (seed receive amount bump : Nat) :
    List Effect × Except EscrowError (PinEscrow.EscrowData × MakeState) :=
  if receive = 0 then ([], .error .InvalidAmount) else
  if amount = 0 then ([], .error .InvalidAmount) else
  match tokenTransfer s.maker_ata_a s.vault amount with
  | none => ([], .error .TokenFailure)
  | some (maker_ata_a, vault) =>
    ([Effect.transfer s.maker_ata_a.key s.vault.key amount],
     .ok (⟨seed, s.makerKey, s.mintA, s.mintB, receive, bump⟩,
          { s with maker_ata_a := maker_ata_a, vault := vault }))

/-- The accounts `Take` touches, with the record already deserialized (anchor's
`Account<Escrow>`). -/
structure TakeState where
  takerKey : Pubkey
  takerLamports : Nat
  makerKey : Pubkey
  makerLamports : Nat
  escrowKey : Pubkey
  escrowLamports : Nat
  escrow : PinEscrow.EscrowData
  mintA : Pubkey
  mintB : Pubkey
  vault : TokenView
  taker_ata_a : TokenView
  taker_ata_b : TokenView
  maker_ata_b : TokenView
deriving DecidableEq

/-- Shallow embedding of the anchor `Take` instruction (take.rs): the accounts
constraints first re-derive the escrow address from the namespace, the maker key
and the stored seed and bump and compare it with the account's address
(`seeds`/`bump`, violation → `ConstraintSeeds`), then check the three `has_one`
constraints; the handler then transfers `receive` of mint B from taker to maker,
transfers the vault's whole balance to the taker, closes the vault to the maker,
and finally the `close = maker` constraint returns the record's lamports to the
maker. The associated-token address constraints are the external derivation
collaborator and are not re-modelled. -/
def take (cpa : Cpa) (s : TakeState) : List Effect × Except EscrowError TakeState :=
  match cpa s.makerKey s.escrow.seed s.escrow.bump with
  | none => ([], .error .ConstraintSeeds)
  | some k =>
    if k ≠ s.escrowKey then ([], .error .ConstraintSeeds) else
    if s.escrow.maker ≠ s.makerKey then ([], .error .InvalidMaker) else
    if s.escrow.mint_a ≠ s.mintA then ([], .error .InvalidMintA) else
    if s.escrow.mint_b ≠ s.mintB then ([], .error .InvalidMintB) else
    match tokenTransfer s.taker_ata_b s.maker_ata_b s.escrow.receive with
    | none => ([], .error .TokenFailure)
    | some (taker_ata_b, maker_ata_b) =>
      match tokenTransfer s.vault s.taker_ata_a s.vault.balance with
      | none =>
        ([Effect.transfer s.taker_ata_b.key s.maker_ata_b.key s.escrow.receive],
         .error .TokenFailure)
      | some (vault, taker_ata_a) =>
        match tokenClose vault s.makerLamports with
        | none =>
          ([Effect.transfer s.taker_ata_b.key s.maker_ata_b.key s.escrow.receive,
            Effect.transfer s.vault.key s.taker_ata_a.key s.vault.balance],
           .error .TokenFailure)
        | some (vault, makerLamports) =>
          ([Effect.transfer s.taker_ata_b.key s.maker_ata_b.key s.escrow.receive,
            Effect.transfer s.vault.key s.taker_ata_a.key s.vault.balance,
            Effect.closeToken s.vault.key s.makerKey s.vault.lamports,
            Effect.closeRecord s.escrowKey s.makerKey s.escrowLamports],
           .ok
            { s with
              makerLamports := makerLamports + s.escrowLamports
              escrowLamports := 0
              vault := vault
              taker_ata_a := taker_ata_a
              taker_ata_b := taker_ata_b
              maker_ata_b := maker_ata_b })

/-- The accounts `Refund` touches. -/
structure RefundState where
  makerKey : Pubkey
  makerLamports : Nat
  escrowKey : Pubkey
  escrowLamports : Nat
  escrow : PinEscrow.EscrowData
  mintA : Pubkey
  vault : TokenView
  maker_ata_a : TokenView
deriving DecidableEq

/-- Shallow embedding of the anchor `Refund` instruction (refund.rs): the seeds
and `has_one` constraints, then the handler transfers the vault's whole balance
back to the maker and closes the vault to the maker; `close = maker` returns the
record's lamports to the maker. -/
def refund (cpa : Cpa) (s : RefundState) :
    List Effect × Except EscrowError RefundState :=
  match cpa s.makerKey s.escrow.seed s.escrow.bump with
  | none => ([], .error .ConstraintSeeds)
  | some k =>
    if k ≠ s.escrowKey then ([], .error .ConstraintSeeds) else
    if s.escrow.maker ≠ s.makerKey then ([], .error .InvalidMaker) else
    if s.escrow.mint_a ≠ s.mintA then ([], .error .InvalidMintA) else
    match tokenTransfer s.vault s.maker_ata_a s.vault.balance with
    | none => ([], .error .TokenFailure)
    | some (vault, maker_ata_a) =>
      match tokenClose vault s.makerLamports with
      | none =>
        ([Effect.transfer s.vault.key s.maker_ata_a.key s.vault.balance],
         .error .TokenFailure)
      | some (vault, makerLamports) =>
        ([Effect.transfer s.vault.key s.maker_ata_a.key s.vault.balance,
          Effect.closeToken s.vault.key s.makerKey s.vault.lamports,
          Effect.closeRecord s.escrowKey s.makerKey s.escrowLamports],
         .ok
          { s with
            makerLamports := makerLamports + s.escrowLamports
            escrowLamports := 0
            vault := vault
            maker_ata_a := maker_ata_a })

end AnchorEscrow

/-!  Concrete fixtures used by witnesses and counterexamples. -/

/-- A derivation that always returns key 50 (matching the fixture escrow). -/
def cpaFix : Cpa := fun _ _ _ => some 50

/-- A derivation that always returns key 999 (mismatching every fixture). -/
def cpaMiss : Cpa := fun _ _ _ => some 999

/-- A populated pinocchio escrow record: seed 9, maker 3, mint_a 12, mint_b 13,
receive 500, bump 254. -/
def pinEscrowBytesFix : List Nat := PinEscrow.mkEscrowBytes 9 3 12 13 500 254

/-- A ready-to-take pinocchio state: taker 2, maker 3, escrow at key 50 holding
the record above, vault (key 20) holding 1000 of mint A, taker's mint-B account
(key 22) holding 600. -/
def pinTakeFix : PinEscrow.TakeState where
  takerKey := 2
  takerLamports := 11
  makerKey := 3
  makerLamports := 13
  escrow := ⟨50, PinEscrow.crateId, 7, pinEscrowBytesFix⟩
  vault := ⟨20, 1000, 2000⟩
  taker_ata_a := ⟨21, 0, 0⟩
  taker_ata_b := ⟨22, 600, 0⟩
  maker_ata_b := ⟨23, 0, 0⟩

/-- The matching pinocchio refund state for the same offer. -/
def pinRefundFix : PinEscrow.RefundState where
  makerKey := 3
  makerLamports := 13
  escrow := ⟨50, PinEscrow.crateId, 7, pinEscrowBytesFix⟩
  vault := ⟨20, 1000, 2000⟩
  maker_ata_a := ⟨24, 5, 0⟩

/-- The anchor analogue of the same ready-to-take offer, with the record already
deserialized. -/
def anchorTakeFix : AnchorEscrow.TakeState where
  takerKey := 2
  takerLamports := 11
  makerKey := 3
  makerLamports := 13
  escrowKey := 50
  escrowLamports := 7
  escrow := ⟨9, 3, 12, 13, 500, 254⟩
  mintA := 12
  mintB := 13
  vault := ⟨20, 1000, 2000⟩
  taker_ata_a := ⟨21, 0, 0⟩
  taker_ata_b := ⟨22, 600, 0⟩
  maker_ata_b := ⟨23, 0, 0⟩

/-- The anchor refund state for the same offer. -/
def anchorRefundFix : AnchorEscrow.RefundState where
  makerKey := 3
  makerLamports := 13
  escrowKey := 50
  escrowLamports := 7
  escrow := ⟨9, 3, 12, 13, 500, 254⟩
  mintA := 12
  vault := ⟨20, 1000, 2000⟩
  maker_ata_a := ⟨24, 5, 0⟩

/-- A borrow instruction for 1 000 000 units: 8 discriminator bytes then the
little-endian amount. -/
def borrowIxFix : FlashLoan.Ix :=
  ⟨FlashLoan.flashProgramId, [], natToLe 0 8 ++ natToLe 1000000 8⟩

/-- A well-formed repay instruction referencing borrower account 10 and pool
account 20 at argument positions 3 and 4. -/
def repayIxFix : FlashLoan.Ix :=
  ⟨FlashLoan.flashProgramId, [⟨0⟩, ⟨0⟩, ⟨0⟩, ⟨10⟩, ⟨20⟩], FlashLoan.repayDiscriminator⟩

/-- A well-formed flash-loan transaction: the borrow first, the repay last. -/
def loanSysvarFix : FlashLoan.IxSysvar := ⟨[borrowIxFix, repayIxFix], 0⟩

/-- A transaction whose last instruction targets the flash-loan program but
carries no data at all: the discriminator slice is out of bounds. -/
def shortLastIxSysvar : FlashLoan.IxSysvar :=
  ⟨[borrowIxFix, ⟨FlashLoan.flashProgramId, [], []⟩], 0⟩

/-- A transaction whose only instruction is a repay (8 bytes of data): the
borrow-amount slice 8..16 of the first instruction is out of bounds. -/
def repayOnlySysvar : FlashLoan.IxSysvar :=
  ⟨[⟨FlashLoan.flashProgramId, [⟨0⟩, ⟨0⟩, ⟨0⟩, ⟨10⟩, ⟨20⟩], FlashLoan.repayDiscriminator⟩], 0⟩

/-- The effect trace a successful take of the pinocchio fixture produces. -/
def pinTakeFixTrace : List Effect :=
  [Effect.transfer 20 21 1000, Effect.closeToken 20 3 2000,
   Effect.transfer 22 23 500, Effect.closeRecord 50 2 7]

/-- The state after a successful take of the pinocchio fixture. -/
def pinTakeFixAfter : PinEscrow.TakeState where
  takerKey := 2
  takerLamports := 18
  makerKey := 3
  makerLamports := 2013
  escrow := ⟨50, PinEscrow.crateId, 0, [255]⟩
  vault := ⟨20, 0, 0⟩
  taker_ata_a := ⟨21, 1000, 0⟩
  taker_ata_b := ⟨22, 100, 0⟩
  maker_ata_b := ⟨23, 500, 0⟩

/-- The effect trace a successful refund of the pinocchio fixture produces. -/
def pinRefundFixTrace : List Effect :=
  [Effect.transfer 20 24 1000, Effect.closeToken 20 3 2000,
   Effect.closeRecord 50 3 7]

/-- The state after a successful refund of the pinocchio fixture. -/
def pinRefundFixAfter : PinEscrow.RefundState where
  makerKey := 3
  makerLamports := 2020
  escrow := ⟨50, PinEscrow.crateId, 0, [255]⟩
  vault := ⟨20, 0, 0⟩
  maker_ata_a := ⟨24, 1005, 0⟩

/-- The effect trace a successful anchor take of the fixture produces. -/
def anchorTakeFixTrace : List Effect :=
  [Effect.transfer 22 23 500, Effect.transfer 20 21 1000,
   Effect.closeToken 20 3 2000, Effect.closeRecord 50 3 7]

/-- The state after a successful anchor take of the fixture. -/
def anchorTakeFixAfter : AnchorEscrow.TakeState where
  takerKey := 2
  takerLamports := 11
  makerKey := 3
  makerLamports := 2020
  escrowKey := 50
  escrowLamports := 0
  escrow := ⟨9, 3, 12, 13, 500, 254⟩
  mintA := 12
  mintB := 13
  vault := ⟨20, 0, 0⟩
  taker_ata_a := ⟨21, 1000, 0⟩
  taker_ata_b := ⟨22, 100, 0⟩
  maker_ata_b := ⟨23, 500, 0⟩

/-!  Inversion helpers. -/

theorem tokenTransfer_ok {src dst : TokenView} {amount : Nat}
    {p : TokenView × TokenView} (h : tokenTransfer src dst amount = some p) :
    p = ({ src with balance := src.balance - amount },
         { dst with balance := dst.balance + amount }) ∧
    amount ≤ src.balance ∧ dst.balance + amount < U64 := by
  unfold tokenTransfer at h
  split at h
  next hc => exact ⟨by injection h with h2; exact h2.symm, hc.1, hc.2⟩
  next => cases h

theorem tokenClose_ok {acct : TokenView} {destLamports : Nat}
    {p : TokenView × Nat} (h : tokenClose acct destLamports = some p) :
    p = ({ acct with lamports := 0 }, destLamports + acct.lamports) ∧
    acct.balance = 0 := by
  unfold tokenClose at h
  split at h
  next hc => exact ⟨by injection h with h2; exact h2.symm, hc⟩
  next => cases h

theorem escrowLoad_ok {bytes : List Nat} {esc : PinEscrow.EscrowData}
    (h : PinEscrow.escrowLoad bytes = .ok esc) :
    bytes.length = PinEscrow.escrowLen := by
  unfold PinEscrow.escrowLoad at h
  split at h
  next => cases h
  next hc => omega

theorem takeProcess_ok_inv {cpa : Cpa} {s : PinEscrow.TakeState}
    {tr : List Effect} {s' : PinEscrow.TakeState}
    (h : PinEscrow.takeProcess cpa s = (tr, .ok s')) :
    ∃ esc, PinEscrow.escrowLoad s.escrow.data = .ok esc ∧
      cpa s.makerKey esc.seed esc.bump = some s.escrow.key ∧
      tr = [Effect.transfer s.vault.key s.taker_ata_a.key s.vault.balance,
            Effect.closeToken s.vault.key s.makerKey s.vault.lamports,
            Effect.transfer s.taker_ata_b.key s.maker_ata_b.key esc.receive,
            Effect.closeRecord s.escrow.key s.takerKey s.escrow.lamports] ∧
      s'.vault.balance = 0 ∧
      s'.takerLamports = s.takerLamports + s.escrow.lamports ∧
      s'.makerLamports = s.makerLamports + s.vault.lamports ∧
      s'.escrow.data = [255] := by
  unfold PinEscrow.takeProcess at h
  cases hload : PinEscrow.escrowLoad s.escrow.data with
  | error e => simp [hload] at h
  | ok esc =>
  simp only [hload] at h
  cases hcpa : cpa s.makerKey esc.seed esc.bump with
  | none => simp [hcpa] at h
  | some k =>
  simp only [hcpa] at h
  rcases eq_or_ne k s.escrow.key with hk | hk
  · rw [if_neg (not_not_intro hk)] at h
    cases htr1 : tokenTransfer s.vault s.taker_ata_a s.vault.balance with
    | none => simp [htr1] at h
    | some p1 =>
    obtain ⟨v1, ta1⟩ := p1
    simp only [htr1] at h
    cases hcl : tokenClose v1 s.makerLamports with
    | none => simp [hcl] at h
    | some p2 =>
    obtain ⟨v2, ml⟩ := p2
    simp only [hcl] at h
    cases htr2 : tokenTransfer s.taker_ata_b s.maker_ata_b esc.receive with
    | none => simp [htr2] at h
    | some p3 =>
    obtain ⟨tab, mab⟩ := p3
    simp only [htr2] at h
    injection h with h1 h2
    injection h2 with h2
    subst h1
    subst h2
    obtain ⟨hp1, hle1, hlt1⟩ := tokenTransfer_ok htr1
    injection hp1 with hv1 hta1
    subst hv1
    subst hta1
    obtain ⟨hp2, hbal⟩ := tokenClose_ok hcl
    injection hp2 with hv2 hml
    subst hv2
    subst hml
    have hlen := escrowLoad_ok hload
    refine ⟨esc, rfl, hk ▸ hcpa, rfl, by simp, ?_, by simp, ?_⟩
    · simp [PinEscrow.programAccountClose]
    · rcases hd : s.escrow.data with _ | ⟨b, rest⟩
      · rw [hd] at hlen; simp [PinEscrow.escrowLen] at hlen
      · rw [hd] at hlen
        simp only [List.length_cons, PinEscrow.escrowLen] at hlen
        simp [PinEscrow.programAccountClose, PinEscrow.resizeData, hd]
  · rw [if_pos hk] at h
    simp at h

theorem refundProcess_ok_inv {cpa : Cpa} {s : PinEscrow.RefundState}
    {tr : List Effect} {s' : PinEscrow.RefundState}
    (h : PinEscrow.refundProcess cpa s = (tr, .ok s')) :
    ∃ esc, PinEscrow.escrowLoad s.escrow.data = .ok esc ∧
      cpa s.makerKey esc.seed esc.bump = some s.escrow.key ∧
      tr = [Effect.transfer s.vault.key s.maker_ata_a.key s.vault.balance,
            Effect.closeToken s.vault.key s.makerKey s.vault.lamports,
            Effect.closeRecord s.escrow.key s.makerKey s.escrow.lamports] ∧
      s'.vault.balance = 0 ∧
      s'.makerLamports = s.makerLamports + s.vault.lamports + s.escrow.lamports ∧
      s'.escrow.data = [255] := by
  unfold PinEscrow.refundProcess at h
  cases hload : PinEscrow.escrowLoad s.escrow.data with
  | error e => simp [hload] at h
  | ok esc =>
  simp only [hload] at h
  cases hcpa : cpa s.makerKey esc.seed esc.bump with
  | none => simp [hcpa] at h
  | some k =>
  simp only [hcpa] at h
  rcases eq_or_ne k s.escrow.key with hk | hk
  · rw [if_neg (not_not_intro hk)] at h
    cases htr1 : tokenTransfer s.vault s.maker_ata_a s.vault.balance with
    | none => simp [htr1] at h
    | some p1 =>
    obtain ⟨v1, ma1⟩ := p1
    simp only [htr1] at h
    cases hcl : tokenClose v1 s.makerLamports with
    | none => simp [hcl] at h
    | some p2 =>
    obtain ⟨v2, ml⟩ := p2
    simp only [hcl] at h
    injection h with h1 h2
    injection h2 with h2
    subst h1
    subst h2
    obtain ⟨hp1, hle1, hlt1⟩ := tokenTransfer_ok htr1
    injection hp1 with hv1 hma1
    subst hv1
    subst hma1
    obtain ⟨hp2, hbal⟩ := tokenClose_ok hcl
    injection hp2 with hv2 hml
    subst hv2
    subst hml
    have hlen := escrowLoad_ok hload
    refine ⟨esc, rfl, hk ▸ hcpa, rfl, by simp, ?_, ?_⟩
    · simp [PinEscrow.programAccountClose]
    · rcases hd : s.escrow.data with _ | ⟨b, rest⟩
      · rw [hd] at hlen; simp [PinEscrow.escrowLen] at hlen
      · rw [hd] at hlen
        simp only [List.length_cons, PinEscrow.escrowLen] at hlen
        simp [PinEscrow.programAccountClose, PinEscrow.resizeData, hd]
  · rw [if_pos hk] at h
    simp at h

theorem anchorTake_ok_inv {cpa : Cpa} {s : AnchorEscrow.TakeState}
    {tr : List Effect} {s' : AnchorEscrow.TakeState}
    (h : AnchorEscrow.take cpa s = (tr, .ok s')) :
    cpa s.makerKey s.escrow.seed s.escrow.bump = some s.escrowKey ∧
    s.escrow.maker = s.makerKey ∧
    s.escrow.mint_a = s.mintA ∧
    s.escrow.mint_b = s.mintB ∧
    tr = [Effect.transfer s.taker_ata_b.key s.maker_ata_b.key s.escrow.receive,
          Effect.transfer s.vault.key s.taker_ata_a.key s.vault.balance,
          Effect.closeToken s.vault.key s.makerKey s.vault.lamports,
          Effect.closeRecord s.escrowKey s.makerKey s.escrowLamports] ∧
    s'.vault.balance = 0 ∧
    s'.makerLamports = s.makerLamports + s.vault.lamports + s.escrowLamports ∧
    s'.takerLamports = s.takerLamports := by
  unfold AnchorEscrow.take at h
  cases hcpa : cpa s.makerKey s.escrow.seed s.escrow.bump with
  | none => simp [hcpa] at h
  | some k =>
  simp only [hcpa] at h
  rcases eq_or_ne k s.escrowKey with hk | hk
  · rw [if_neg (not_not_intro hk)] at h
    rcases eq_or_ne s.escrow.maker s.makerKey with hm | hm
    · rw [if_neg (not_not_intro hm)] at h
      rcases eq_or_ne s.escrow.mint_a s.mintA with ha | ha
      · rw [if_neg (not_not_intro ha)] at h
        rcases eq_or_ne s.escrow.mint_b s.mintB with hb2 | hb2
        · rw [if_neg (not_not_intro hb2)] at h
          cases htr1 : tokenTransfer s.taker_ata_b s.maker_ata_b s.escrow.receive with
          | none => simp [htr1] at h
          | some p1 =>
          obtain ⟨tab, mab⟩ := p1
          simp only [htr1] at h
          cases htr2 : tokenTransfer s.vault s.taker_ata_a s.vault.balance with
          | none => simp [htr2] at h
          | some p2 =>
          obtain ⟨v1, ta1⟩ := p2
          simp only [htr2] at h
          cases hcl : tokenClose v1 s.makerLamports with
          | none => simp [hcl] at h
          | some p3 =>
          obtain ⟨v2, ml⟩ := p3
          simp only [hcl] at h
          injection h with h1 h2
          injection h2 with h2
          subst h1
          subst h2
          obtain ⟨hp2, hle2, hlt2⟩ := tokenTransfer_ok htr2
          injection hp2 with hv1 hta1
          subst hv1
          subst hta1
          obtain ⟨hp3, hbal⟩ := tokenClose_ok hcl
          injection hp3 with hv2 hml
          subst hv2
          subst hml
          exact ⟨by rw [hk], hm, ha, hb2, rfl, by simp, by simp, rfl⟩
        · rw [if_pos hb2] at h; simp at h
      · rw [if_pos ha] at h; simp at h
    · rw [if_pos hm] at h; simp at h
  · rw [if_pos hk] at h; simp at h

theorem anchorRefund_ok_inv {cpa : Cpa} {s : AnchorEscrow.RefundState}
    {tr : List Effect} {s' : AnchorEscrow.RefundState}
    (h : AnchorEscrow.refund cpa s = (tr, .ok s')) :
    cpa s.makerKey s.escrow.seed s.escrow.bump = some s.escrowKey ∧
    s.escrow.maker = s.makerKey ∧
    s.escrow.mint_a = s.mintA ∧
    tr = [Effect.transfer s.vault.key s.maker_ata_a.key s.vault.balance,
          Effect.closeToken s.vault.key s.makerKey s.vault.lamports,
          Effect.closeRecord s.escrowKey s.makerKey s.escrowLamports] ∧
    s'.vault.balance = 0 ∧
    s'.makerLamports = s.makerLamports + s.vault.lamports + s.escrowLamports := by
  unfold AnchorEscrow.refund at h
  cases hcpa : cpa s.makerKey s.escrow.seed s.escrow.bump with
  | none => simp [hcpa] at h
  | some k =>
  simp only [hcpa] at h
  rcases eq_or_ne k s.escrowKey with hk | hk
  · rw [if_neg (not_not_intro hk)] at h
    rcases eq_or_ne s.escrow.maker s.makerKey with hm | hm
    · rw [if_neg (not_not_intro hm)] at h
      rcases eq_or_ne s.escrow.mint_a s.mintA with ha | ha
      · rw [if_neg (not_not_intro ha)] at h
        cases htr1 : tokenTransfer s.vault s.maker_ata_a s.vault.balance with
        | none => simp [htr1] at h
        | some p1 =>
        obtain ⟨v1, ma1⟩ := p1
        simp only [htr1] at h
        cases hcl : tokenClose v1 s.makerLamports with
        | none => simp [hcl] at h
        | some p2 =>
        obtain ⟨v2, ml⟩ := p2
        simp only [hcl] at h
        injection h with h1 h2
        injection h2 with h2
        subst h1
        subst h2
        obtain ⟨hp1, hle1, hlt1⟩ := tokenTransfer_ok htr1
        injection hp1 with hv1 hma1
        subst hv1
        subst hma1
        obtain ⟨hp2, hbal⟩ := tokenClose_ok hcl
        injection hp2 with hv2 hml
        subst hv2
        subst hml
        exact ⟨by rw [hk], hm, ha, rfl, by simp, by simp⟩
      · rw [if_pos ha] at h; simp at h
    · rw [if_pos hm] at h; simp at h
  · rw [if_pos hk] at h; simp at h

theorem takeProcess_mismatch {cpa : Cpa} {s : PinEscrow.TakeState}
    {esc : PinEscrow.EscrowData} {k : Pubkey}
    (hload : PinEscrow.escrowLoad s.escrow.data = .ok esc)
    (hcpa : cpa s.makerKey esc.seed esc.bump = some k)
    (hk : k ≠ s.escrow.key) :
    PinEscrow.takeProcess cpa s = ([], .error .InvalidAccountOwner) := by
  unfold PinEscrow.takeProcess
  simp only [hload, hcpa]
  rw [if_pos hk]

theorem refundProcess_mismatch {cpa : Cpa} {s : PinEscrow.RefundState}
    {esc : PinEscrow.EscrowData} {k : Pubkey}
    (hload : PinEscrow.escrowLoad s.escrow.data = .ok esc)
    (hcpa : cpa s.makerKey esc.seed esc.bump = some k)
    (hk : k ≠ s.escrow.key) :
    PinEscrow.refundProcess cpa s = ([], .error .InvalidAccountOwner) := by
  unfold PinEscrow.refundProcess
  simp only [hload, hcpa]
  rw [if_pos hk]

theorem anchorTake_mismatch {cpa : Cpa} {s : AnchorEscrow.TakeState} {k : Pubkey}
    (hcpa : cpa s.makerKey s.escrow.seed s.escrow.bump = some k)
    (hk : k ≠ s.escrowKey) :
    AnchorEscrow.take cpa s = ([], .error .ConstraintSeeds) := by
  unfold AnchorEscrow.take
  simp only [hcpa]
  rw [if_pos hk]

theorem anchorRefund_mismatch {cpa : Cpa} {s : AnchorEscrow.RefundState} {k : Pubkey}
    (hcpa : cpa s.makerKey s.escrow.seed s.escrow.bump = some k)
    (hk : k ≠ s.escrowKey) :
    AnchorEscrow.refund cpa s = ([], .error .ConstraintSeeds) := by
  unfold AnchorEscrow.refund
  simp only [hcpa]
  rw [if_pos hk]

theorem takeProcess_badlen {cpa : Cpa} {s : PinEscrow.TakeState}
    (hlen : s.escrow.data.length ≠ PinEscrow.escrowLen) :
    PinEscrow.takeProcess cpa s = ([], .error .InvalidAccountData) := by
  unfold PinEscrow.takeProcess PinEscrow.escrowLoad
  rw [if_pos hlen]

theorem refundProcess_badlen {cpa : Cpa} {s : PinEscrow.RefundState}
    (hlen : s.escrow.data.length ≠ PinEscrow.escrowLen) :
    PinEscrow.refundProcess cpa s = ([], .error .InvalidAccountData) := by
  unfold PinEscrow.refundProcess PinEscrow.escrowLoad
  rw [if_pos hlen]

theorem borrow_ok_inv {ks : FlashLoan.LoanKeys} {st : FlashLoan.LoanState}
    {amt : Nat} {sv : FlashLoan.IxSysvar} {e : List Effect}
    {st' : FlashLoan.LoanState}
    (h : FlashLoan.borrow ks st amt sv = (e, .ok st')) :
    st' = ⟨st.protocolAta - amt, st.borrowerAta + amt⟩ ∧
    amt ≤ st.protocolAta ∧ st.borrowerAta + amt < U64 ∧ 0 < amt ∧
    e = [Effect.transfer ks.protocolAta ks.borrowerAta amt] ∧
    FlashLoan.borrowChecksPass ks sv = true := by
  unfold FlashLoan.borrow at h
  by_cases h0 : amt = 0
  · rw [if_pos h0] at h; simp at h
  rw [if_neg h0] at h
  cases htr : tokenTransfer ⟨ks.protocolAta, st.protocolAta, 0⟩
      ⟨ks.borrowerAta, st.borrowerAta, 0⟩ amt with
  | none => simp [htr] at h
  | some p =>
  obtain ⟨pool, borrower⟩ := p
  simp only [htr] at h
  by_cases hcur : FlashLoan.loadCurrentIndexChecked sv ≠ 0
  · rw [if_pos hcur] at h; simp at h
  rw [if_neg hcur] at h
  cases hld : FlashLoan.loadInstructionAtChecked (sv.instrs.length % 65536 - 1) sv with
  | none => simp [hld] at h
  | some rix =>
  simp only [hld] at h
  by_cases hpid : rix.program_id ≠ FlashLoan.flashProgramId
  · rw [if_pos hpid] at h; simp at h
  rw [if_neg hpid] at h
  by_cases hlen8 : rix.data.length < 8
  · rw [if_pos hlen8] at h; simp at h
  rw [if_neg hlen8] at h
  by_cases hdisc : rix.data.take 8 ≠ FlashLoan.repayDiscriminator
  · rw [if_pos hdisc] at h; simp at h
  rw [if_neg hdisc] at h
  cases hg3 : rix.accounts[3]? with
  | none => simp [hg3] at h
  | some m3 =>
  simp only [hg3] at h
  by_cases hm3 : m3.pubkey ≠ ks.borrowerAta
  · rw [if_pos hm3] at h; simp at h
  rw [if_neg hm3] at h
  cases hg4 : rix.accounts[4]? with
  | none => simp [hg4] at h
  | some m4 =>
  simp only [hg4] at h
  by_cases hm4 : m4.pubkey ≠ ks.protocolAta
  · rw [if_pos hm4] at h; simp at h
  rw [if_neg hm4] at h
  injection h with h1 h2
  injection h2 with h2
  subst h2
  subst h1
  obtain ⟨hp, hle, hlt⟩ := tokenTransfer_ok htr
  injection hp with hpool hbor
  subst hpool
  subst hbor
  push_neg at hcur hpid hdisc hm3 hm4
  refine ⟨by simp, by simpa using hle, by simpa using hlt, Nat.pos_of_ne_zero h0, rfl, ?_⟩
  simp only [FlashLoan.loadCurrentIndexChecked] at hcur
  simp [FlashLoan.borrowChecksPass, hld, hcur, hpid, hdisc, hg3, hg4, hm3, hm4]

theorem repayTotal_eq {amt : Nat} (hlt : amt < U64) :
    FlashLoan.repayTotal amt =
      if amt + amt * 500 / 10000 < U64 then .ok (amt + amt * 500 / 10000)
      else .error (.err .Overflow) := by
  have hmul : amt * 500 < 2 ^ 128 := by
    have : amt * 500 < U64 * 500 := by
      exact Nat.mul_lt_mul_of_lt_of_le hlt (le_refl 500) (by norm_num)
    calc amt * 500 < U64 * 500 := this
      _ < 2 ^ 128 := by norm_num [U64]
  have hfee : amt * 500 / 10000 < U64 := by
    have h1 : amt * 500 / 10000 ≤ amt * 10000 / 10000 :=
      Nat.div_le_div_right (Nat.mul_le_mul_left amt (by norm_num))
    have h2 : amt * 10000 / 10000 = amt := Nat.mul_div_cancel amt (by norm_num)
    omega
  have h10 : ((10000 : Nat) = 0) = False := by norm_num
  unfold FlashLoan.repayTotal FlashLoan.flashFee FlashLoan.checkedMul128
    FlashLoan.checkedDiv FlashLoan.checkedAdd64
  simp only [if_pos hmul, h10, if_false]
  rw [Nat.mod_eq_of_lt hfee]
  by_cases hov : amt + amt * 500 / 10000 < U64 <;> simp [hov]

theorem repay_ok_inv {ks : FlashLoan.LoanKeys} {st : FlashLoan.LoanState}
    {sv : FlashLoan.IxSysvar} {e : List Effect} {st' : FlashLoan.LoanState}
    (h : FlashLoan.repay ks st sv = (e, .ok st')) :
    ∃ ix0, FlashLoan.loadInstructionAtChecked 0 sv = some ix0 ∧
      16 ≤ ix0.data.length ∧
      ∃ total, FlashLoan.repayTotal (leBytes ((ix0.data.drop 8).take 8)) = .ok total ∧
        total ≤ st.borrowerAta ∧ st.protocolAta + total < U64 ∧
        e = [Effect.transfer ks.borrowerAta ks.protocolAta total] ∧
        st' = ⟨st.protocolAta + total, st.borrowerAta - total⟩ := by
  unfold FlashLoan.repay at h
  cases hld : FlashLoan.loadInstructionAtChecked 0 sv with
  | none => simp [hld] at h
  | some ix0 =>
  simp only [hld] at h
  by_cases hl16 : ix0.data.length < 16
  · rw [if_pos hl16] at h; simp at h
  rw [if_neg hl16] at h
  cases htot : FlashLoan.repayTotal (leBytes ((ix0.data.drop 8).take 8)) with
  | error a => simp [htot] at h
  | ok total =>
  simp only [htot] at h
  cases htr : tokenTransfer ⟨ks.borrowerAta, st.borrowerAta, 0⟩
      ⟨ks.protocolAta, st.protocolAta, 0⟩ total with
  | none => simp [htr] at h
  | some p =>
  obtain ⟨borrower, pool⟩ := p
  simp only [htr] at h
  injection h with h1 h2
  injection h2 with h2
  subst h2
  subst h1
  obtain ⟨hp, hle, hlt⟩ := tokenTransfer_ok htr
  injection hp with hbor hpool
  subst hbor
  subst hpool
  exact ⟨ix0, rfl, by omega, total, htot, by simpa using hle, by simpa using hlt,
    rfl, by simp⟩

theorem borrow_panic_inv {ks : FlashLoan.LoanKeys} {st : FlashLoan.LoanState}
    {amt : Nat} {sv : FlashLoan.IxSysvar} {e : List Effect}
    (h : FlashLoan.borrow ks st amt sv = (e, .error .panic)) :
    FlashLoan.borrowHitsPanic sv = true := by
  unfold FlashLoan.borrow at h
  by_cases h0 : amt = 0
  · rw [if_pos h0] at h; simp at h
  rw [if_neg h0] at h
  cases htr : tokenTransfer ⟨ks.protocolAta, st.protocolAta, 0⟩
      ⟨ks.borrowerAta, st.borrowerAta, 0⟩ amt with
  | none => simp [htr] at h
  | some p =>
  obtain ⟨pool, borrower⟩ := p
  simp only [htr] at h
  by_cases hcur : FlashLoan.loadCurrentIndexChecked sv ≠ 0
  · rw [if_pos hcur] at h; simp at h
  rw [if_neg hcur] at h
  cases hld : FlashLoan.loadInstructionAtChecked (sv.instrs.length % 65536 - 1) sv with
  | none => simp [hld] at h
  | some rix =>
  simp only [hld] at h
  by_cases hpid : rix.program_id ≠ FlashLoan.flashProgramId
  · rw [if_pos hpid] at h; simp at h
  rw [if_neg hpid] at h
  by_cases hlen8 : rix.data.length < 8
  · push_neg at hcur hpid
    simp only [FlashLoan.loadCurrentIndexChecked] at hcur
    simp [FlashLoan.borrowHitsPanic, hld, hcur, hpid, hlen8]
  rw [if_neg hlen8] at h
  by_cases hdisc : rix.data.take 8 ≠ FlashLoan.repayDiscriminator
  · rw [if_pos hdisc] at h; simp at h
  rw [if_neg hdisc] at h
  cases hg3 : rix.accounts[3]? with
  | none => simp [hg3] at h
  | some m3 =>
  simp only [hg3] at h
  by_cases hm3 : m3.pubkey ≠ ks.borrowerAta
  · rw [if_pos hm3] at h; simp at h
  rw [if_neg hm3] at h
  cases hg4 : rix.accounts[4]? with
  | none => simp [hg4] at h
  | some m4 =>
  simp only [hg4] at h
  by_cases hm4 : m4.pubkey ≠ ks.protocolAta
  · rw [if_pos hm4] at h; simp at h
  rw [if_neg hm4] at h
  simp at h

/-!  Claims. -/

/-- Claim C6: the fee function satisfies fee(1 000 000) = 50 000 and fee(3) = 0
(integer truncation), and the repayment computation on a u64-maximal borrow
amount fails with the tagged Overflow error instead of wrapping. -/
theorem C6_fee_values :
    FlashLoan.flashFee 1000000 = .ok 50000 ∧
    FlashLoan.flashFee 3 = .ok 0 ∧
    FlashLoan.repayTotal (U64 - 1) = .error (.err .Overflow) :=
  ⟨rfl, rfl, rfl⟩

/-- Claim C4 (failing input): the pinocchio Make parser accepts a zero
receive amount — `MakeInstructionData::try_from` on 24-byte data with
receive = 0 and deposit amount = 1 succeeds — while the anchor make handler
rejects the same arguments with InvalidAmount, as the claim demands. -/
theorem C4_zero_receive_accepted :
    PinEscrow.makeInstructionDataTryFrom
      (natToLe 7 8 ++ natToLe 0 8 ++ natToLe 1 8) = .ok ⟨7, 0, 1⟩ ∧
    (AnchorEscrow.makeHandler ⟨3, 12, 13, ⟨14, 100, 0⟩, ⟨20, 0, 0⟩⟩ 7 0 1 254).2 =
      .error .InvalidAmount := by
  constructor <;> rfl

/-- Claim C9 (amended): when the first instruction of the transaction cannot be
loaded, Repay returns the tagged MissingBorrowIx error; but when it loads and its
data payload is shorter than 16 bytes, the fixed-offset extraction of bytes 8..16
is an out-of-bounds panic, aborting the call without a tagged error. In both
cases no transfer effect is issued. -/
theorem C9_repay_first_ix_handling (ks : FlashLoan.LoanKeys)
    (st : FlashLoan.LoanState) (sv : FlashLoan.IxSysvar) :
    (FlashLoan.loadInstructionAtChecked 0 sv = none →
      FlashLoan.repay ks st sv = ([], .error (.err .MissingBorrowIx))) ∧
    (∀ ix0, FlashLoan.loadInstructionAtChecked 0 sv = some ix0 →
      ix0.data.length < 16 →
      FlashLoan.repay ks st sv = ([], .error .panic)) := by
  constructor
  · intro h
    unfold FlashLoan.repay
    rw [h]
  · intro ix0 h h16
    unfold FlashLoan.repay
    simp only [h]
    rw [if_pos h16]

/-- Claim C9 witness: a transaction whose only instruction is a Repay (8 bytes of
data) reaches the panic, not a tagged error. -/
theorem C9_repay_first_ix_handling_witness :
    FlashLoan.repay ⟨10, 20⟩ ⟨1000, 1000⟩ repayOnlySysvar =
      ([], .error .panic) :=
  (C9_repay_first_ix_handling ⟨10, 20⟩ ⟨1000, 1000⟩ repayOnlySysvar).2 _ rfl
    (by decide)

/-- Claim C9 counterexample: with a 4-byte first instruction the extraction of
bytes 8..16 is not total — Repay ends in the untagged panic outcome, refuting
the claim that it terminates with an error rather than panicking on every
payload shape. -/
theorem C9_counterexample :
    (FlashLoan.repay ⟨10, 20⟩ ⟨1000, 1000⟩
      ⟨[⟨FlashLoan.flashProgramId, [], [7, 7, 7, 7]⟩], 1⟩).2 = .error .panic :=
  rfl

/-- Claim C1 (amended): Borrow succeeds only when the introspection conditions
hold — executing at index 0, last instruction targeting this program, carrying
the Repay discriminator, and referencing the same borrower and pool token
accounts at positions 3 and 4; when they fail, Borrow aborts, and the abort is a
tagged error in every case except a last instruction that targets this program
with data shorter than the 8-byte discriminator, where Borrow panics instead. -/
theorem C1_borrow_introspection_gate (ks : FlashLoan.LoanKeys)
    (st : FlashLoan.LoanState) (amt : Nat) (sv : FlashLoan.IxSysvar) :
    (∀ st', (FlashLoan.borrow ks st amt sv).2 = .ok st' →
      FlashLoan.borrowChecksPass ks sv = true) ∧
    (FlashLoan.borrowChecksPass ks sv = false →
      ∀ st', (FlashLoan.borrow ks st amt sv).2 ≠ .ok st') ∧
    (FlashLoan.borrowChecksPass ks sv = false →
      FlashLoan.borrowHitsPanic sv = false →
      ∃ e, (FlashLoan.borrow ks st amt sv).2 = .error (.err e)) := by
  refine ⟨?_, ?_, ?_⟩
  · intro st' h
    have h2 : FlashLoan.borrow ks st amt sv =
        ((FlashLoan.borrow ks st amt sv).1, .ok st') := by rw [← h]
    exact (borrow_ok_inv h2).2.2.2.2.2
  · intro hfalse st' h
    have h2 : FlashLoan.borrow ks st amt sv =
        ((FlashLoan.borrow ks st amt sv).1, .ok st') := by rw [← h]
    exact absurd ((borrow_ok_inv h2).2.2.2.2.2) (by simp [hfalse])
  · intro h1 h2
    rcases hres : FlashLoan.borrow ks st amt sv with ⟨eff, res⟩
    cases res with
    | ok st' => exact absurd ((borrow_ok_inv hres).2.2.2.2.2) (by simp [h1])
    | error a =>
      cases a with
      | err e => exact ⟨e, rfl⟩
      | panic => exact absurd (borrow_panic_inv hres) (by simp [h2])

/-- Claim C1 witness: a transaction where Borrow is not the first instruction
makes it fail with a tagged error. -/
theorem C1_borrow_introspection_gate_witness :
    ∃ e, (FlashLoan.borrow ⟨10, 20⟩ ⟨1000, 0⟩ 5 ⟨[], 1⟩).2 =
      .error (.err e) :=
  (C1_borrow_introspection_gate ⟨10, 20⟩ ⟨1000, 0⟩ 5 ⟨[], 1⟩).2.2 rfl rfl

/-- Claim C1 counterexample: introspection fails (the last instruction cannot
carry the Repay discriminator) yet Borrow does not return a tagged error — it
panics on the out-of-bounds discriminator slice, refuting the claim that every
failed introspection check yields a tagged error. -/
theorem C1_counterexample :
    (FlashLoan.borrow ⟨10, 20⟩ ⟨1000, 0⟩ 5 shortLastIxSysvar).2 = .error .panic ∧
    FlashLoan.borrowChecksPass ⟨10, 20⟩ shortLastIxSysvar = false := by
  constructor <;> rfl

/-- Claim C5: Repay reads the borrow amount from bytes 8..16 of the first
instruction's payload, computes fee = floor(amount * 500 / 10000) and the
overflow-checked total amount + fee, and transfers exactly that total from the
borrower to the pool; for a successful Borrow/Repay pair the pool's net balance
change is exactly the fee. -/
theorem C5_pool_gains_exactly_fee (ks : FlashLoan.LoanKeys)
    (s0 s1 s2 : FlashLoan.LoanState) (amt : Nat) (sv : FlashLoan.IxSysvar)
    (e1 e2 : List Effect) (ix0 : FlashLoan.Ix)
    (hix : FlashLoan.loadInstructionAtChecked 0 sv = some ix0)
    (hamt : leBytes ((ix0.data.drop 8).take 8) = amt)
    (hb : FlashLoan.borrow ks s0 amt sv = (e1, .ok s1))
    (hr : FlashLoan.repay ks s1 sv = (e2, .ok s2)) :
    s2.protocolAta = s0.protocolAta + amt * 500 / 10000 ∧
    s2.borrowerAta + amt * 500 / 10000 = s0.borrowerAta ∧
    e2 = [Effect.transfer ks.borrowerAta ks.protocolAta (amt + amt * 500 / 10000)] := by
  obtain ⟨hs1, hle, hlt, hpos, he1, hcp⟩ := borrow_ok_inv hb
  obtain ⟨ix0', hld', h16, total, htot, hle2, hlt2, he2, hs2⟩ := repay_ok_inv hr
  rw [hix] at hld'
  injection hld' with hld'
  subst hld'
  have hlen8 : ((ix0.data.drop 8).take 8).length = 8 := by
    rw [List.length_take, List.length_drop]
    omega
  have hamtlt : amt < U64 := by
    rw [← hamt]
    have hb2 := leBytes_lt ((ix0.data.drop 8).take 8)
    rw [hlen8] at hb2
    exact lt_of_lt_of_le hb2 (by norm_num [U64])
  rw [hamt, repayTotal_eq hamtlt] at htot
  by_cases hov : amt + amt * 500 / 10000 < U64
  · rw [if_pos hov] at htot
    injection htot with htot
    subst htot
    subst hs2
    subst hs1
    simp only at hle2 hlt2 ⊢
    refine ⟨by omega, by omega, he2⟩
  · rw [if_neg hov] at htot
    cases htot

/-- Claim C5 witness: borrowing 1 000 000 with a well-formed repay as the last
instruction, then repaying, moves the pool from 2 000 000 to 2 050 000 — a net
gain of exactly the 50 000 fee. -/
theorem C5_pool_gains_exactly_fee_witness :
    (⟨2050000, 450000⟩ : FlashLoan.LoanState).protocolAta =
      (⟨2000000, 500000⟩ : FlashLoan.LoanState).protocolAta + 1000000 * 500 / 10000 ∧
    (⟨2050000, 450000⟩ : FlashLoan.LoanState).borrowerAta + 1000000 * 500 / 10000 =
      (⟨2000000, 500000⟩ : FlashLoan.LoanState).borrowerAta ∧
    [Effect.transfer 10 20 1050000] =
      [Effect.transfer (⟨10, 20⟩ : FlashLoan.LoanKeys).borrowerAta
        (⟨10, 20⟩ : FlashLoan.LoanKeys).protocolAta (1000000 + 1000000 * 500 / 10000)] :=
  C5_pool_gains_exactly_fee ⟨10, 20⟩ ⟨2000000, 500000⟩ ⟨1000000, 1500000⟩
    ⟨2050000, 450000⟩ 1000000 loanSysvarFix
    [Effect.transfer 20 10 1000000] [Effect.transfer 10 20 1050000] borrowIxFix
    rfl rfl rfl rfl

/-- Claim C2 (amended): on a successful Take the Vault is closed with its
lamports going to the maker in both implementations; the EscrowRecord's
lamports go to the taker in the pinocchio implementation, but to the maker in
the anchor implementation (its `close = maker` constraint). -/
theorem C2_close_destinations :
    (∀ (cpa : Cpa) (s : PinEscrow.TakeState) (tr : List Effect)
        (s' : PinEscrow.TakeState),
      PinEscrow.takeProcess cpa s = (tr, .ok s') →
      tr.get? 1 = some (Effect.closeToken s.vault.key s.makerKey s.vault.lamports) ∧
      tr.get? 3 = some (Effect.closeRecord s.escrow.key s.takerKey s.escrow.lamports) ∧
      s'.makerLamports = s.makerLamports + s.vault.lamports ∧
      s'.takerLamports = s.takerLamports + s.escrow.lamports) ∧
    (∀ (cpa : Cpa) (s : AnchorEscrow.TakeState) (tr : List Effect)
        (s' : AnchorEscrow.TakeState),
      AnchorEscrow.take cpa s = (tr, .ok s') →
      tr.get? 2 = some (Effect.closeToken s.vault.key s.makerKey s.vault.lamports) ∧
      tr.get? 3 = some (Effect.closeRecord s.escrowKey s.makerKey s.escrowLamports) ∧
      s'.makerLamports = s.makerLamports + s.vault.lamports + s.escrowLamports ∧
      s'.takerLamports = s.takerLamports) := by
  constructor
  · intro cpa s tr s' h
    obtain ⟨esc, _, _, htr, _, htl, hml, _⟩ := takeProcess_ok_inv h
    subst htr
    exact ⟨rfl, rfl, hml, htl⟩
  · intro cpa s tr s' h
    obtain ⟨_, _, _, _, htr, _, hml, htl⟩ := anchorTake_ok_inv h
    subst htr
    exact ⟨rfl, rfl, hml, htl⟩

/-- Claim C2 witness: the destinations on the concrete pinocchio fixture. -/
theorem C2_close_destinations_witness :
    pinTakeFixTrace.get? 1 = some (Effect.closeToken pinTakeFix.vault.key
      pinTakeFix.makerKey pinTakeFix.vault.lamports) ∧
    pinTakeFixTrace.get? 3 = some (Effect.closeRecord pinTakeFix.escrow.key
      pinTakeFix.takerKey pinTakeFix.escrow.lamports) ∧
    pinTakeFixAfter.makerLamports =
      pinTakeFix.makerLamports + pinTakeFix.vault.lamports ∧
    pinTakeFixAfter.takerLamports =
      pinTakeFix.takerLamports + pinTakeFix.escrow.lamports :=
  C2_close_destinations.1 cpaFix pinTakeFix pinTakeFixTrace pinTakeFixAfter rfl

/-- Claim C2 counterexample: on a successful anchor Take with maker key 3 and
taker key 2, the record close effect sends the record's lamports to the maker
(key 3), not the taker, refuting the claim that the EscrowRecord's reclaim goes
to the taker in this implementation. -/
theorem C2_counterexample :
    (AnchorEscrow.take cpaFix anchorTakeFix).1.get? 3 =
      some (Effect.closeRecord 50 3 7) ∧
    anchorTakeFix.makerKey = 3 ∧
    anchorTakeFix.takerKey = 2 ∧
    anchorTakeFix.makerKey ≠ anchorTakeFix.takerKey ∧
    (AnchorEscrow.take cpaFix anchorTakeFix).2 = .ok anchorTakeFixAfter := by
  refine ⟨rfl, rfl, rfl, by decide, rfl⟩

/-- Claim C3 (amended): in the anchor Take the taker-to-maker transfer of
receive_amount is the first effect, before any vault operation; in the
pinocchio Take the vault withdrawal is the first effect and the vault close the
second, with the taker-to-maker transfer only third. -/
theorem C3_transfer_order :
    (∀ (cpa : Cpa) (s : AnchorEscrow.TakeState) (tr : List Effect)
        (s' : AnchorEscrow.TakeState),
      AnchorEscrow.take cpa s = (tr, .ok s') →
      tr.head? = some (Effect.transfer s.taker_ata_b.key s.maker_ata_b.key
        s.escrow.receive)) ∧
    (∀ (cpa : Cpa) (s : PinEscrow.TakeState) (tr : List Effect)
        (s' : PinEscrow.TakeState),
      PinEscrow.takeProcess cpa s = (tr, .ok s') →
      ∃ esc, PinEscrow.escrowLoad s.escrow.data = .ok esc ∧
        tr.head? = some (Effect.transfer s.vault.key s.taker_ata_a.key
          s.vault.balance) ∧
        tr.get? 2 = some (Effect.transfer s.taker_ata_b.key s.maker_ata_b.key
          esc.receive)) := by
  constructor
  · intro cpa s tr s' h
    obtain ⟨_, _, _, _, htr, _⟩ := anchorTake_ok_inv h
    subst htr
    rfl
  · intro cpa s tr s' h
    obtain ⟨esc, hload, _, htr, _⟩ := takeProcess_ok_inv h
    subst htr
    exact ⟨esc, hload, rfl, rfl⟩

/-- Claim C3 witness: the anchor ordering on the concrete fixture. -/
theorem C3_transfer_order_witness :
    anchorTakeFixTrace.head? = some (Effect.transfer anchorTakeFix.taker_ata_b.key
      anchorTakeFix.maker_ata_b.key anchorTakeFix.escrow.receive) :=
  C3_transfer_order.1 cpaFix anchorTakeFix anchorTakeFixTrace anchorTakeFixAfter rfl

/-- Claim C3 counterexample: on a successful pinocchio Take the first effect is
the vault-to-taker transfer (from the vault, key 20) and the vault close is
second; the taker-to-maker transfer (from the taker's mint-B account, key 22)
is only the third effect — the transfer is not performed before the vault is
touched, refuting the claim for this implementation. -/
theorem C3_counterexample :
    (PinEscrow.takeProcess cpaFix pinTakeFix).1 = pinTakeFixTrace ∧
    pinTakeFixTrace.head? = some (Effect.transfer 20 21 1000) ∧
    pinTakeFixTrace.get? 2 = some (Effect.transfer 22 23 500) ∧
    pinTakeFix.vault.key = 20 ∧
    pinTakeFix.taker_ata_b.key = 22 := by
  refine ⟨rfl, rfl, rfl, rfl, rfl⟩

/-- Claim C7: every instruction that references an existing EscrowRecord (Take
and Refund, in both implementations) re-derives the record's address from the
escrow namespace, the maker key, the stored seed and the stored bump, fails
with the address-mismatch error when it differs from the record's own address,
and issues no effect (no fund movement) on that failure path. -/
theorem C7_record_address_checked :
    (∀ (cpa : Cpa) (s : PinEscrow.TakeState) (esc : PinEscrow.EscrowData)
        (k : Pubkey),
      PinEscrow.escrowLoad s.escrow.data = .ok esc →
      cpa s.makerKey esc.seed esc.bump = some k → k ≠ s.escrow.key →
      PinEscrow.takeProcess cpa s = ([], .error .InvalidAccountOwner)) ∧
    (∀ (cpa : Cpa) (s : PinEscrow.RefundState) (esc : PinEscrow.EscrowData)
        (k : Pubkey),
      PinEscrow.escrowLoad s.escrow.data = .ok esc →
      cpa s.makerKey esc.seed esc.bump = some k → k ≠ s.escrow.key →
      PinEscrow.refundProcess cpa s = ([], .error .InvalidAccountOwner)) ∧
    (∀ (cpa : Cpa) (s : AnchorEscrow.TakeState) (k : Pubkey),
      cpa s.makerKey s.escrow.seed s.escrow.bump = some k → k ≠ s.escrowKey →
      AnchorEscrow.take cpa s = ([], .error .ConstraintSeeds)) ∧
    (∀ (cpa : Cpa) (s : AnchorEscrow.RefundState) (k : Pubkey),
      cpa s.makerKey s.escrow.seed s.escrow.bump = some k → k ≠ s.escrowKey →
      AnchorEscrow.refund cpa s = ([], .error .ConstraintSeeds)) :=
  ⟨fun _ _ _ _ h1 h2 h3 => takeProcess_mismatch h1 h2 h3,
   fun _ _ _ _ h1 h2 h3 => refundProcess_mismatch h1 h2 h3,
   fun _ _ _ h1 h2 => anchorTake_mismatch h1 h2,
   fun _ _ _ h1 h2 => anchorRefund_mismatch h1 h2⟩

/-- Claim C7 witness: a derivation returning key 999 against the fixture record
at key 50 makes the pinocchio Take fail with the mismatch error and no effects. -/
theorem C7_record_address_checked_witness :
    PinEscrow.takeProcess cpaMiss pinTakeFix = ([], .error .InvalidAccountOwner) :=
  C7_record_address_checked.1 cpaMiss pinTakeFix ⟨9, 3, 12, 13, 500, 254⟩ 999
    rfl rfl (by decide)

/-- Claim C8: on success, Take and Refund (both implementations) transfer the
vault's entire live balance — the first vault effect moves exactly
`s.vault.balance` — and the vault's token balance is zero from that point
through its close. -/
theorem C8_vault_drained_live :
    (∀ (cpa : Cpa) (s : PinEscrow.TakeState) (tr : List Effect)
        (s' : PinEscrow.TakeState),
      PinEscrow.takeProcess cpa s = (tr, .ok s') →
      tr.head? = some (Effect.transfer s.vault.key s.taker_ata_a.key
        s.vault.balance) ∧ s'.vault.balance = 0) ∧
    (∀ (cpa : Cpa) (s : PinEscrow.RefundState) (tr : List Effect)
        (s' : PinEscrow.RefundState),
      PinEscrow.refundProcess cpa s = (tr, .ok s') →
      tr.head? = some (Effect.transfer s.vault.key s.maker_ata_a.key
        s.vault.balance) ∧ s'.vault.balance = 0) ∧
    (∀ (cpa : Cpa) (s : AnchorEscrow.TakeState) (tr : List Effect)
        (s' : AnchorEscrow.TakeState),
      AnchorEscrow.take cpa s = (tr, .ok s') →
      tr.get? 1 = some (Effect.transfer s.vault.key s.taker_ata_a.key
        s.vault.balance) ∧ s'.vault.balance = 0) ∧
    (∀ (cpa : Cpa) (s : AnchorEscrow.RefundState) (tr : List Effect)
        (s' : AnchorEscrow.RefundState),
      AnchorEscrow.refund cpa s = (tr, .ok s') →
      tr.head? = some (Effect.transfer s.vault.key s.maker_ata_a.key
        s.vault.balance) ∧ s'.vault.balance = 0) := by
  refine ⟨?_, ?_, ?_, ?_⟩
  · intro cpa s tr s' h
    obtain ⟨esc, _, _, htr, hz, _⟩ := takeProcess_ok_inv h
    subst htr
    exact ⟨rfl, hz⟩
  · intro cpa s tr s' h
    obtain ⟨esc, _, _, htr, hz, _⟩ := refundProcess_ok_inv h
    subst htr
    exact ⟨rfl, hz⟩
  · intro cpa s tr s' h
    obtain ⟨_, _, _, _, htr, hz, _⟩ := anchorTake_ok_inv h
    subst htr
    exact ⟨rfl, hz⟩
  · intro cpa s tr s' h
    obtain ⟨_, _, _, htr, hz, _⟩ := anchorRefund_ok_inv h
    subst htr
    exact ⟨rfl, hz⟩

/-- Claim C8 witness: the pinocchio refund of the fixture moves the vault's full
1000-unit live balance as its first effect and ends with an empty vault. -/
theorem C8_vault_drained_live_witness :
    pinRefundFixTrace.head? = some (Effect.transfer pinRefundFix.vault.key
      pinRefundFix.maker_ata_a.key pinRefundFix.vault.balance) ∧
    pinRefundFixAfter.vault.balance = 0 :=
  C8_vault_drained_live.2.1 cpaFix pinRefundFix pinRefundFixTrace
    pinRefundFixAfter rfl

/-- Claim C10: `Escrow::LEN` is 113; `ProgramAccount::close` overwrites the
first data byte with 0xff, credits the account's lamports to the destination,
and leaves the account with one data byte and no lamports, so the closed record
can never again pass `ProgramAccount::check` or `Escrow::load`; consequently any
later Take or Refund on a record whose data length is not `Escrow::LEN` fails
before issuing any effect. -/
theorem C10_record_close_permanent :
    PinEscrow.escrowLen = 113 ∧
    (∀ (a : PinEscrow.AccountView) (destL : Nat),
      a.data.length = PinEscrow.escrowLen →
      (PinEscrow.programAccountClose a destL).1.data = [255] ∧
      (PinEscrow.programAccountClose a destL).2 = destL + a.lamports ∧
      (PinEscrow.programAccountClose a destL).1.lamports = 0 ∧
      PinEscrow.programAccountCheck (PinEscrow.programAccountClose a destL).1 ≠
        .ok () ∧
      PinEscrow.escrowLoad (PinEscrow.programAccountClose a destL).1.data =
        .error .InvalidAccountData) ∧
    (∀ (cpa : Cpa) (s : PinEscrow.TakeState),
      s.escrow.data.length ≠ PinEscrow.escrowLen →
      PinEscrow.takeProcess cpa s = ([], .error .InvalidAccountData)) ∧
    (∀ (cpa : Cpa) (s : PinEscrow.RefundState),
      s.escrow.data.length ≠ PinEscrow.escrowLen →
      PinEscrow.refundProcess cpa s = ([], .error .InvalidAccountData)) := by
  refine ⟨rfl, ?_, fun cpa s h => takeProcess_badlen h,
    fun cpa s h => refundProcess_badlen h⟩
  intro a destL hlen
  have hdata : (PinEscrow.programAccountClose a destL).1.data = [255] := by
    rcases hd : a.data with _ | ⟨b, rest⟩
    · rw [hd] at hlen; simp [PinEscrow.escrowLen] at hlen
    · rw [hd] at hlen
      simp only [List.length_cons, PinEscrow.escrowLen] at hlen
      simp [PinEscrow.programAccountClose, PinEscrow.resizeData, hd]
  refine ⟨hdata, by simp [PinEscrow.programAccountClose],
    by simp [PinEscrow.programAccountClose], ?_, by rw [hdata]; rfl⟩
  unfold PinEscrow.programAccountCheck
  by_cases ho : (PinEscrow.programAccountClose a destL).1.owner ≠ PinEscrow.crateId
  · rw [if_pos ho]; simp
  · rw [if_neg ho, hdata]
    simp [PinEscrow.escrowLen]

/-- Claim C10 witness: closing the fixture record leaves a 1-byte account that
`Escrow::load` rejects. -/
theorem C10_record_close_permanent_witness :
    PinEscrow.escrowLoad (PinEscrow.programAccountClose
      ⟨50, PinEscrow.crateId, 7, pinEscrowBytesFix⟩ 0).1.data =
      .error .InvalidAccountData :=
  ((C10_record_close_permanent.2.1 ⟨50, PinEscrow.crateId, 7, pinEscrowBytesFix⟩
    0 (by decide)).2.2.2.2)
